import Mathlib

/-!
Shallow embedding of the Agora vote engine (slack_handlers.py, poll_management.py,
models.py) and verification of the frozen specification claims.

The database tables of models.py become lists of records; SQLAlchemy
query-first becomes List.find?, row updates become updateFirst, inserts become
list append.  The autoincrement id sequence for poll options is modelled by the
nextOptionId field.  Timestamps are epoch seconds (Int); the float analytics
columns are modelled exactly with Rat.  Tables no claim touches (VoteActivity,
Notification, TeamSettings, CrossChannelView) are omitted, as are the Slack
payload strings; push delivery is modelled by a success oracle.
-/

namespace Agora

/-- Row of the polls table (models.Poll). -/
structure Poll where
  id : Nat
  question : String
  teamId : String
  channelId : String
  creatorId : String
  voteType : String
  status : String
  createdAt : Int
  endedAt : Option Int
  messageTs : Option String
deriving DecidableEq

/-- Row of the poll_options table (models.PollOption). -/
structure PollOption where
  id : Nat
  pollId : Nat
  text : String
  voteCount : Nat
  orderIndex : Nat
deriving DecidableEq

/-- Row of the voted_users table (models.VotedUser). -/
structure VotedUser where
  pollId : Nat
  userId : String
  votedAt : Int
deriving DecidableEq

/-- Row of the user_votes table, the vote ledger (models.UserVote). -/
structure UserVote where
  pollId : Nat
  userId : String
  optionId : Nat
  votedAt : Int
deriving DecidableEq

/-- Row of the poll_analytics table (models.PollAnalytics).  Following the
source comment, avgResponseTime is in minutes. -/
structure PollAnalytics where
  pollId : Nat
  totalVotes : Nat
  uniqueVoters : Nat
  participationRate : Rat
  avgResponseTime : Rat
  peakVotingHour : Option Int
deriving DecidableEq

/-- Row of the poll_shares table (models.PollShare). -/
structure PollShare where
  pollId : Nat
  channelId : String
  messageTs : Option String
  sharedBy : String
  isActive : Bool
deriving DecidableEq

/-- Row of the user_roles table (models.UserRole). -/
structure UserRole where
  userId : String
  teamId : String
  role : String
  isActive : Bool
deriving DecidableEq

/-- The database state.  nextOptionId models the id sequence for the
poll_options table. -/
structure DB where
  polls : List Poll
  options : List PollOption
  votedUsers : List VotedUser
  userVotes : List UserVote
  analytics : List PollAnalytics
  shares : List PollShare
  roles : List UserRole
  nextOptionId : Nat
deriving DecidableEq

/-- Update the first element satisfying p, like a SQLAlchemy update of the row
returned by query(...).first(). -/
def updateFirst {α : Type} (p : α → Bool) (f : α → α) : List α → List α
  | [] => []
  | a :: rest => if p a then f a :: rest else a :: updateFirst p f rest

/-- Delete the first element satisfying p, like db.delete of the row returned
by query(...).first(). -/
def eraseFirstP {α : Type} (p : α → Bool) : List α → List α
  | [] => []
  | a :: rest => if p a then rest else a :: eraseFirstP p rest

/-- db.query(Poll).filter(Poll.id == poll_id).first() -/
def findPoll (db : DB) (pollId : Nat) : Option Poll :=
  db.polls.find? (fun p => p.id == pollId)

/-- poll.options relationship: options rows with this poll id. -/
def pollOptions (db : DB) (pollId : Nat) : List PollOption :=
  db.options.filter (fun o => o.pollId == pollId)

/-- poll.voted_users relationship. -/
def pollVoters (db : DB) (pollId : Nat) : List VotedUser :=
  db.votedUsers.filter (fun v => v.pollId == pollId)

/-- poll.user_votes relationship: the ledger of this poll. -/
def pollVotes (db : DB) (pollId : Nat) : List UserVote :=
  db.userVotes.filter (fun v => v.pollId == pollId)

/-- sum(option.vote_count for option in poll.options) -/
def totalVotes (db : DB) (pollId : Nat) : Nat :=
  ((pollOptions db pollId).map (fun o => o.voteCount)).sum

/-- Number of ledger records naming a given option id. -/
def countVotesFor (votes : List UserVote) (optionId : Nat) : Nat :=
  (votes.filter (fun v => v.optionId == optionId)).length

/-- datetime.hour of an epoch-second timestamp. -/
def hourOf (t : Int) : Int := (t / 3600) % 24

/-- One step of building the hour_counts dict in update_poll_analytics;
insertion order of the Python dict is kept. -/
def bumpHour : List (Int × Nat) → Int → List (Int × Nat)
  | [], h => [(h, 1)]
  | (h0, c) :: rest, h =>
      if h0 == h then (h0, c + 1) :: rest else (h0, c) :: bumpHour rest h

/-- The hour_counts dict of update_poll_analytics as an insertion-ordered
association list. -/
def hourCounts (votes : List UserVote) : List (Int × Nat) :=
  votes.foldl (fun acc v => bumpHour acc (hourOf v.votedAt)) []

/-- max(hour_counts, key=hour_counts.get): first key of maximal count in
insertion order, none when the dict is empty. -/
def peakHour (votes : List UserVote) : Option Int :=
  match hourCounts votes with
  | [] => none
  | e :: rest =>
      some (rest.foldl (fun best x => if x.2 > best.2 then x else best) e).1

/-- The metrics computed by update_poll_analytics from the poll row, its
options, its voted_users rows and its ledger. -/
def computeAnalytics (poll : Poll) (opts : List PollOption)
    (voters : List VotedUser) (votes : List UserVote) : PollAnalytics :=
  let total := (opts.map (fun o => o.voteCount)).sum
  let unique := voters.length
  { pollId := poll.id
    totalVotes := total
    uniqueVoters := unique
    participationRate := min 100 ((unique : Rat) / ((max 1 total : Nat) : Rat) * 100)
    avgResponseTime :=
      if votes.isEmpty then 0
      else (votes.map (fun v => ((v.votedAt - poll.createdAt : Int) : Rat) / 60)).sum
             / (votes.length : Rat)
    peakVotingHour := peakHour votes }

/-- update_poll_analytics of slack_handlers.py: recompute the metrics and
update the existing analytics row in place, or insert one.  The
update_vote_activity call touches only the omitted VoteActivity table. -/
def update_poll_analytics (db : DB) (pollId : Nat) : DB :=
  match findPoll db pollId with
  | none => db
  | some poll =>
      let row := computeAnalytics poll (pollOptions db pollId)
        (pollVoters db pollId) (pollVotes db pollId)
      if (db.analytics.find? (fun a => a.pollId == pollId)).isSome then
        { db with analytics :=
            updateFirst (fun a => a.pollId == pollId) (fun _ => row) db.analytics }
      else
        { db with analytics := db.analytics ++ [row] }

/-- process_vote of slack_handlers.py.  Returns the success flag and the
committed database.  Note the source checks only the poll and the
VotedUser dedup row; the option id is looked up solely to increment the
first matching row, with no validation. -/
def process_vote (db : DB) (pollId optionId : Nat) (userId : String)
    (now : Int) : Bool × DB :=
  match findPoll db pollId with
  | none => (false, db)
  | some poll =>
      if poll.status != "active" then (false, db)
      else
        let existingVote :=
          db.votedUsers.find? (fun v => v.pollId == pollId && v.userId == userId)
        if existingVote.isSome && poll.voteType == "single" then (false, db)
        else
          let db1 : DB :=
            if existingVote.isSome then db
            else { db with votedUsers :=
                     db.votedUsers ++ [{ pollId := pollId, userId := userId, votedAt := now }] }
          let db2 : DB := { db1 with userVotes :=
                         db1.userVotes ++ [{ pollId := pollId, userId := userId,
                                             optionId := optionId, votedAt := now }] }
          let db3 : DB := { db2 with options :=
                         (updateFirst (fun o => o.id == optionId)
                           (fun o => { o with voteCount := o.voteCount + 1 }) db2.options) }
          (true, update_poll_analytics db3 pollId)

/-- end_poll of slack_handlers.py: only the creator check guards it; the
current status is not inspected. -/
def end_poll (db : DB) (pollId : Nat) (userId : String) (now : Int) : Bool × DB :=
  match findPoll db pollId with
  | none => (false, db)
  | some poll =>
      if poll.creatorId != userId then (false, db)
      else
        (true, { db with polls :=
                   (updateFirst (fun p => p.id == pollId)
                     (fun p => { p with status := "ended", endedAt := some now }) db.polls) })

/-- get_user_role of slack_handlers.py; the default role is user. -/
def get_user_role (db : DB) (userId teamId : String) : String :=
  match db.roles.find? (fun r => r.userId == userId && r.teamId == teamId && r.isActive) with
  | some r => r.role
  | none => "user"

/-- The permissions dict of check_permission. -/
def rolePermissions (role : String) : List String :=
  if role == "admin" then
    ["create_poll", "end_any_poll", "view_results", "vote", "manage_users", "manage_settings"]
  else if role == "user" then
    ["create_poll", "end_own_poll", "view_results", "vote"]
  else if role == "viewer" then
    ["view_results", "vote"]
  else []

/-- check_permission of slack_handlers.py. -/
def check_permission (db : DB) (userId teamId action : String) : Bool :=
  (rolePermissions (get_user_role db userId teamId)).contains action

/-- can_end_poll of slack_handlers.py, keeping only the boolean verdict and
dropping the human-readable reason string. -/
def can_end_poll (db : DB) (userId teamId : String) (pollId : Nat) : Bool :=
  match findPoll db pollId with
  | none => false
  | some poll =>
      if check_permission db userId teamId "end_any_poll" then true
      else if check_permission db userId teamId "end_own_poll" && poll.creatorId == userId then
        true
      else false

/-- notify_vote_milestone of slack_handlers.py reduced to whether the
milestone trigger fires, that is whether send_notification is reached: the
count must be divisible by 5 and the poll must exist. -/
def notify_vote_milestone_fires (db : DB) (pollId : Nat) (voteCount : Nat) : Bool :=
  if voteCount % 5 != 0 then false
  else (findPoll db pollId).isSome

/-- handle_vote of slack_handlers.py reduced to its state effect and whether
the vote-milestone trigger fires; on success the total is re-read from the
updated database exactly as the handler does.  Message pushes are elided here
(they are modelled separately for the fan-out claims). -/
def handle_vote (db : DB) (pollId optionId : Nat) (userId : String)
    (now : Int) : DB × Bool :=
  let r := process_vote db pollId optionId userId now
  if r.1 then
    (r.2, notify_vote_milestone_fires r.2 pollId (totalVotes r.2 pollId))
  else (r.2, false)

/-- handle_end_poll of slack_handlers.py reduced to its state effect and
whether the poll-ended notification side effect fires (it fires exactly when
the permission gate passes and end_poll reports success). -/
def handle_end_poll (db : DB) (pollId : Nat) (userId teamId : String)
    (now : Int) : DB × Bool :=
  if can_end_poll db userId teamId pollId then
    let r := end_poll db pollId userId now
    (r.2, r.1)
  else (db, false)

/-- Python str.lower: lower-case every character. -/
def strLower (s : String) : String := String.mk (s.data.map Char.toLower)

/-- Python str.strip: drop whitespace from both ends. -/
def strStrip (s : String) : String :=
  String.mk (((s.data.dropWhile Char.isWhitespace).reverse.dropWhile
    Char.isWhitespace).reverse)

/-- add_poll_option of poll_management.py (PollManager.add_poll_option); the
fresh option id is drawn from the id sequence. -/
def add_poll_option (db : DB) (pollId : Nat) (optionText userId : String) : Bool × DB :=
  if (strStrip optionText).length == 0 then (false, db)
  else
    match findPoll db pollId with
    | none => (false, db)
    | some poll =>
        let opts := pollOptions db pollId
        if poll.status != "active" then (false, db)
        else if poll.creatorId != userId && get_user_role db userId poll.teamId != "admin" then
          (false, db)
        else if opts.length >= 20 then (false, db)
        else
          let clean := strStrip optionText
          if (opts.map (fun o => strStrip (strLower o.text))).contains (strLower clean) then
            (false, db)
          else
            let maxOrder := (opts.map (fun o => o.orderIndex)).foldl max 0
            (true, { db with
                      options := db.options ++
                        [{ id := db.nextOptionId, pollId := pollId, text := clean,
                           voteCount := 0, orderIndex := maxOrder + 1 }],
                      nextOptionId := db.nextOptionId + 1 })

/-- remove_poll_option of poll_management.py: legal only on an active poll,
for the creator or an admin, when the option has no votes and more than two
options remain. -/
def remove_poll_option (db : DB) (pollId optionId : Nat) (userId : String) : Bool × DB :=
  match findPoll db pollId with
  | none => (false, db)
  | some poll =>
      match db.options.find? (fun o => o.id == optionId && o.pollId == pollId) with
      | none => (false, db)
      | some opt =>
          if poll.status != "active" then (false, db)
          else if poll.creatorId != userId && get_user_role db userId poll.teamId != "admin" then
            (false, db)
          else if opt.voteCount > 0 then (false, db)
          else if (pollOptions db pollId).length <= 2 then (false, db)
          else
            (true, { db with options :=
                       (eraseFirstP (fun o => o.id == optionId && o.pollId == pollId) db.options) })

/-- edit_poll_option of poll_management.py: renames an option of an active
poll, refusing duplicates among the other options. -/
def edit_poll_option (db : DB) (pollId optionId : Nat) (newText userId : String) : Bool × DB :=
  if (strStrip newText).length == 0 then (false, db)
  else
    match findPoll db pollId with
    | none => (false, db)
    | some poll =>
        match db.options.find? (fun o => o.id == optionId && o.pollId == pollId) with
        | none => (false, db)
        | some _ =>
            if poll.status != "active" then (false, db)
            else if poll.creatorId != userId && get_user_role db userId poll.teamId != "admin" then
              (false, db)
            else
              let clean := strStrip newText
              let others := (pollOptions db pollId).filter (fun o => o.id != optionId)
              if (others.map (fun o => strStrip (strLower o.text))).contains (strLower clean) then
                (false, db)
              else
                (true, { db with options :=
                           (updateFirst (fun o => o.id == optionId && o.pollId == pollId)
                             (fun o => { o with text := clean }) db.options) })

/-- reorder_poll_options of poll_management.py: the submitted id list must be
the set of option ids of the poll; then each option gets its position in the
list as order index. -/
def reorder_poll_options (db : DB) (pollId : Nat) (order : List Nat)
    (userId : String) : Bool × DB :=
  match findPoll db pollId with
  | none => (false, db)
  | some poll =>
      if poll.status != "active" then (false, db)
      else if poll.creatorId != userId && get_user_role db userId poll.teamId != "admin" then
        (false, db)
      else
        let ids := (pollOptions db pollId).map (fun o => o.id)
        if !(order.all (fun i => ids.contains i) && ids.all (fun i => order.contains i)) then
          (false, db)
        else
          (true, { db with options :=
                     (order.enum.foldl (fun acc x =>
                         updateFirst (fun o => o.id == x.2 && o.pollId == pollId)
                           (fun o => { o with orderIndex := x.1 }) acc) db.options) })

/-!
View synchronization fan-out.  The Slack chat_update push is modelled by a
success oracle from (channel, message timestamp) to Bool; false means the
client call raises.
-/

/-- update_poll_message of slack_handlers.py: pushes the primary message.
Returns false exactly when the push raised (the source has no try/except
here, so the exception escapes to the caller). -/
def update_poll_message (env : String → String → Bool) (db : DB) (pollId : Nat)
    (channelId ts : String) : Bool :=
  match findPoll db pollId with
  | none => true
  | some _ => env channelId ts

/-- update_shared_poll_messages of slack_handlers.py.  The second component
is none when the primary push raised (the exception escapes before any share
is visited); otherwise it lists, for every active share that has a message
timestamp, the channel and whether its push succeeded — each share push is
wrapped in its own try/except, so one failure never stops the loop.  The
database is returned to make explicit that the function performs no writes. -/
def update_shared_poll_messages (env : String → String → Bool) (db : DB)
    (pollId : Nat) : DB × Option (List (String × Bool)) :=
  match findPoll db pollId with
  | none => (db, some [])
  | some poll =>
      let primaryOk :=
        match poll.messageTs with
        | none => true
        | some ts => update_poll_message env db pollId poll.channelId ts
      if !primaryOk then (db, none)
      else
        let shares := db.shares.filter (fun s => s.pollId == pollId && s.isActive)
        (db, some (shares.filterMap (fun s =>
            s.messageTs.map (fun ts => (s.channelId, env s.channelId ts)))))

/-- Whether the post-vote message sync makes handle_vote show its error
message to the voter: exactly when an exception escaped the fan-out. -/
def sync_error_reaches_voter (env : String → String → Bool) (db : DB)
    (pollId : Nat) : Bool :=
  (update_shared_poll_messages env db pollId).2.isNone

/-!
Committed mutations and the counter-consistency invariant.
-/

/-- One committed mutation of the engine. -/
inductive Mutation where
  | vote (pollId optionId : Nat) (userId : String) (now : Int)
  | endP (pollId : Nat) (userId : String) (now : Int)
  | addOption (pollId : Nat) (text userId : String)
  | removeOption (pollId optionId : Nat) (userId : String)
  | editOption (pollId optionId : Nat) (text userId : String)
  | reorder (pollId : Nat) (order : List Nat) (userId : String)

/-- The state reached by a mutation, committed or refused. -/
def applyMutation (db : DB) : Mutation → DB
  | .vote p o u t => (process_vote db p o u t).2
  | .endP p u t => (end_poll db p u t).2
  | .addOption p s u => (add_poll_option db p s u).2
  | .removeOption p o u => (remove_poll_option db p o u).2
  | .editOption p o s u => (edit_poll_option db p o s u).2
  | .reorder p ord u => (reorder_poll_options db p ord u).2

/-- The state after a whole sequence of mutations. -/
def applyAll (db : DB) : List Mutation → DB
  | [] => db
  | m :: ms => applyAll (applyMutation db m) ms

/-- A vote mutation names an option that exists right now; other mutations
are unrestricted. -/
def voteTargetsExisting (db : DB) : Mutation → Prop
  | .vote _ o _ _ => ∃ opt ∈ db.options, opt.id = o
  | _ => True

/-- Every vote of the sequence names an option existing when it is applied. -/
def goodSeq (db : DB) : List Mutation → Prop
  | [] => True
  | m :: ms => voteTargetsExisting db m ∧ goodSeq (applyMutation db m) ms

/-- Invariant 1 of the spec: every cached option counter equals the number of
ledger records naming that option. -/
def countersConsistent (db : DB) : Prop :=
  ∀ o ∈ db.options, o.voteCount = countVotesFor db.userVotes o.id

/-- All option ids and all ledger option references are below the id
sequence, and option ids are pairwise distinct: what the autoincrement
primary key guarantees. -/
def idsWellFormed (db : DB) : Prop :=
  (∀ o ∈ db.options, o.id < db.nextOptionId) ∧
    (∀ v ∈ db.userVotes, v.optionId < db.nextOptionId) ∧
    (db.options.map (fun o => o.id)).Nodup

/-- Healthy database: consistent counters plus well-formed ids. -/
def wellFormed (db : DB) : Prop :=
  countersConsistent db ∧ idsWellFormed db

instance (db : DB) : Decidable (countersConsistent db) :=
  inferInstanceAs (Decidable (∀ o ∈ db.options, o.voteCount = countVotesFor db.userVotes o.id))

instance (db : DB) : Decidable (idsWellFormed db) :=
  inferInstanceAs (Decidable (_ ∧ _ ∧ _))

instance (db : DB) : Decidable (wellFormed db) :=
  inferInstanceAs (Decidable (_ ∧ _))

instance (db : DB) (m : Mutation) : Decidable (voteTargetsExisting db m) := by
  cases m <;> simp only [voteTargetsExisting] <;> infer_instance

instance (db : DB) (ms : List Mutation) : Decidable (goodSeq db ms) := by
  induction ms generalizing db with
  | nil => exact isTrue trivial
  | cons m ms ih =>
      have : Decidable (voteTargetsExisting db m ∧ goodSeq (applyMutation db m) ms) :=
        @instDecidableAnd _ _ _ (ih (applyMutation db m))
      exact this

/-- Repeated process_vote calls by one voter on one poll, returning the list
of success flags and the final state. -/
def voteSeq (db : DB) (pollId : Nat) (userId : String) :
    List (Nat × Int) → List Bool × DB
  | [] => ([], db)
  | (o, t) :: rest =>
      let r := process_vote db pollId o userId t
      let rs := voteSeq r.2 pollId userId rest
      (r.1 :: rs.1, rs.2)

/-!
Concrete fixtures used by witnesses and counterexamples.
-/

/-- A live multiple-choice poll created by U1 at time 0. -/
def pollA : Poll :=
  { id := 1, question := "Q", teamId := "T1", channelId := "C1", creatorId := "U1",
    voteType := "multiple", status := "active", createdAt := 0,
    endedAt := none, messageTs := some "ts0" }

/-- The single-choice variant of the fixture poll. -/
def pollS : Poll := { pollA with voteType := "single" }

/-- Fresh database: the multiple-choice poll with two zero-count options. -/
def dbBase : DB :=
  { polls := [pollA],
    options := [{ id := 1, pollId := 1, text := "A", voteCount := 0, orderIndex := 0 },
                { id := 2, pollId := 1, text := "B", voteCount := 0, orderIndex := 1 }],
    votedUsers := [], userVotes := [], analytics := [], shares := [], roles := [],
    nextOptionId := 3 }

/-- Fresh database around the single-choice poll. -/
def dbSingle : DB := { dbBase with polls := [pollS] }

/-- Multiple-choice database where U1 already has a ledger record for option 1. -/
def dbC1 : DB :=
  { dbBase with
    options := [{ id := 1, pollId := 1, text := "A", voteCount := 1, orderIndex := 0 },
                { id := 2, pollId := 1, text := "B", voteCount := 0, orderIndex := 1 }],
    votedUsers := [{ pollId := 1, userId := "U1", votedAt := 0 }],
    userVotes := [{ pollId := 1, userId := "U1", optionId := 1, votedAt := 0 }] }

/-- The poll fixture already ended at time 100. -/
def dbEnded : DB :=
  { dbBase with polls := [{ pollA with status := "ended", endedAt := some 100 }] }

/-- Database where U2 is an active admin of team T1. -/
def dbAdmin : DB :=
  { dbBase with roles := [{ userId := "U2", teamId := "T1", role := "admin", isActive := true }] }

/-- Multiple-choice poll with five committed votes by five distinct voters. -/
def dbFive : DB :=
  { dbBase with
    options := [{ id := 1, pollId := 1, text := "A", voteCount := 5, orderIndex := 0 },
                { id := 2, pollId := 1, text := "B", voteCount := 0, orderIndex := 1 }],
    votedUsers := (["V1", "V2", "V3", "V4", "V5"].map
      (fun u => { pollId := 1, userId := u, votedAt := 0 })),
    userVotes := (["V1", "V2", "V3", "V4", "V5"].map
      (fun u => { pollId := 1, userId := u, optionId := 1, votedAt := 0 })) }

/-- Database with one committed vote cast 60 seconds after poll creation. -/
def dbSixty : DB :=
  { dbBase with
    options := [{ id := 1, pollId := 1, text := "A", voteCount := 1, orderIndex := 0 },
                { id := 2, pollId := 1, text := "B", voteCount := 0, orderIndex := 1 }],
    votedUsers := [{ pollId := 1, userId := "V1", votedAt := 60 }],
    userVotes := [{ pollId := 1, userId := "V1", optionId := 1, votedAt := 60 }] }

/-- The poll shared into two further channels, both shares active. -/
def dbShares : DB :=
  { dbBase with shares :=
      [{ pollId := 1, channelId := "R1", messageTs := some "t1", sharedBy := "U1", isActive := true },
       { pollId := 1, channelId := "R2", messageTs := some "t2", sharedBy := "U1", isActive := true }] }

/-- Push oracle where only the replica in channel R2 fails. -/
def envR2Fails : String → String → Bool := fun c _ => c != "R2"

/-- Push oracle where the primary channel C1 fails and every replica would
succeed. -/
def envPrimaryFails : String → String → Bool := fun c _ => c != "C1"

/-!
Helper lemmas.
-/

theorem updateFirst_map_eq {α β : Type} (p : α → Bool) (f : α → α) (g : α → β)
    (hg : ∀ a, g (f a) = g a) : ∀ l : List α, (updateFirst p f l).map g = l.map g
  | [] => rfl
  | a :: rest => by
      by_cases h : p a
      · simp [updateFirst, h, hg]
      · simp [updateFirst, h, updateFirst_map_eq p f g hg rest]

theorem updateFirst_of_forall_not {α : Type} (p : α → Bool) (f : α → α) :
    ∀ l : List α, (∀ a ∈ l, p a = false) → updateFirst p f l = l
  | [], _ => rfl
  | a :: rest, h => by
      have ha := h a (List.mem_cons_self a rest)
      simp [updateFirst, ha]
      exact updateFirst_of_forall_not p f rest (fun x hx => h x (List.mem_cons_of_mem a hx))

theorem find?_updateFirst {α : Type} (p : α → Bool) (f : α → α) :
    ∀ l : List α, ∀ a : α, l.find? p = some a → p (f a) = true →
      (updateFirst p f l).find? p = some (f a)
  | [], a, h, _ => by simp at h
  | b :: rest, a, h, hpf => by
      by_cases hb : p b
      · rw [List.find?_cons_of_pos _ hb] at h
        cases h
        simp [updateFirst, hb, List.find?_cons_of_pos _ hpf]
      · rw [List.find?_cons_of_neg _ hb] at h
        simp [updateFirst, hb, List.find?_cons_of_neg _ hb]
        exact find?_updateFirst p f rest a h hpf

theorem eraseFirstP_sublist {α : Type} (p : α → Bool) :
    ∀ l : List α, List.Sublist (eraseFirstP p l) l
  | [] => List.Sublist.refl []
  | a :: rest => by
      by_cases h : p a
      · simp only [eraseFirstP, h, if_true]
        exact List.sublist_cons_self a rest
      · simpa [eraseFirstP, h] using List.Sublist.cons₂ a (eraseFirstP_sublist p rest)

theorem mem_eraseFirstP {α : Type} (p : α → Bool) (l : List α) (a : α)
    (h : a ∈ eraseFirstP p l) : a ∈ l :=
  (eraseFirstP_sublist p l).mem h

theorem countVotesFor_append (votes : List UserVote) (v : UserVote) (i : Nat) :
    countVotesFor (votes ++ [v]) i =
      countVotesFor votes i + (if v.optionId == i then 1 else 0) := by
  unfold countVotesFor
  rw [List.filter_append, List.length_append]
  by_cases h : v.optionId == i <;> simp [h]

theorem countVotesFor_eq_zero (votes : List UserVote) (n : Nat)
    (h : ∀ v ∈ votes, v.optionId < n) : countVotesFor votes n = 0 := by
  unfold countVotesFor
  rw [List.length_eq_zero]
  rw [List.filter_eq_nil_iff]
  intro v hv
  have := h v hv
  simp only [beq_iff_eq]
  omega

/-- The analytics recompute touches only the analytics table. -/
theorem update_poll_analytics_shape (db : DB) (pollId : Nat) :
    ∃ al, update_poll_analytics db pollId = { db with analytics := al } := by
  unfold update_poll_analytics
  cases findPoll db pollId with
  | none => exact ⟨db.analytics, rfl⟩
  | some poll =>
      by_cases h : (db.analytics.find? (fun a => a.pollId == pollId)).isSome
      · refine ⟨updateFirst (fun a => a.pollId == pollId)
          (fun _ => computeAnalytics poll (pollOptions db pollId)
            (pollVoters db pollId) (pollVotes db pollId)) db.analytics, ?_⟩
        simp only [h, if_true]
      · refine ⟨db.analytics ++ [computeAnalytics poll (pollOptions db pollId)
          (pollVoters db pollId) (pollVotes db pollId)], ?_⟩
        simp only [h, Bool.false_eq_true, if_false]

/-- Shape of a committed vote by a voter with no VotedUser row yet: the
exact rows written by process_vote. -/
theorem process_vote_success_fresh (db : DB) (pollId optionId : Nat) (userId : String)
    (now : Int) (poll : Poll)
    (hfind : findPoll db pollId = some poll) (hactive : poll.status = "active")
    (hfresh : db.votedUsers.find? (fun v => v.pollId == pollId && v.userId == userId) = none) :
    ∃ al, process_vote db pollId optionId userId now =
      (true,
       { db with
         votedUsers := db.votedUsers ++ [{ pollId := pollId, userId := userId, votedAt := now }],
         userVotes := db.userVotes ++
           [{ pollId := pollId, userId := userId, optionId := optionId, votedAt := now }],
         options := (updateFirst (fun o => o.id == optionId)
           (fun o => { o with voteCount := o.voteCount + 1 }) db.options),
         analytics := al }) := by
  obtain ⟨al, hal⟩ := update_poll_analytics_shape
    { db with
      votedUsers := db.votedUsers ++ [{ pollId := pollId, userId := userId, votedAt := now }],
      userVotes := db.userVotes ++
        [{ pollId := pollId, userId := userId, optionId := optionId, votedAt := now }],
      options := (updateFirst (fun o => o.id == optionId)
        (fun o => { o with voteCount := o.voteCount + 1 }) db.options) } pollId
  refine ⟨al, ?_⟩
  unfold process_vote
  rw [hfind]
  simp only [hactive, hfresh, Option.isSome_none, Bool.false_and, Bool.false_eq_true,
    if_false, bne_self_eq_false]
  exact congrArg (fun x => (true, x)) hal

/-- Shape of a committed repeat vote on a non-single poll: only a ledger row
and the counter are written. -/
theorem process_vote_success_repeat (db : DB) (pollId optionId : Nat) (userId : String)
    (now : Int) (poll : Poll)
    (hfind : findPoll db pollId = some poll) (hactive : poll.status = "active")
    (hvoted : (db.votedUsers.find? (fun v => v.pollId == pollId && v.userId == userId)).isSome = true)
    (hmult : poll.voteType ≠ "single") :
    ∃ al, process_vote db pollId optionId userId now =
      (true,
       { db with
         userVotes := db.userVotes ++
           [{ pollId := pollId, userId := userId, optionId := optionId, votedAt := now }],
         options := (updateFirst (fun o => o.id == optionId)
           (fun o => { o with voteCount := o.voteCount + 1 }) db.options),
         analytics := al }) := by
  obtain ⟨al, hal⟩ := update_poll_analytics_shape
    { db with
      userVotes := db.userVotes ++
        [{ pollId := pollId, userId := userId, optionId := optionId, votedAt := now }],
      options := (updateFirst (fun o => o.id == optionId)
        (fun o => { o with voteCount := o.voteCount + 1 }) db.options) } pollId
  refine ⟨al, ?_⟩
  unfold process_vote
  rw [hfind]
  have hbeq : (poll.voteType == "single") = false := by simp [hmult]
  simp only [hactive, hvoted, hbeq, Bool.and_false, Bool.false_eq_true, if_false,
    bne_self_eq_false, if_true]
  exact congrArg (fun x => (true, x)) hal

/-- A vote refused because the poll is missing changes nothing. -/
theorem process_vote_fail_notfound (db : DB) (pollId optionId : Nat)
    (userId : String) (now : Int) (hfind : findPoll db pollId = none) :
    process_vote db pollId optionId userId now = (false, db) := by
  unfold process_vote
  rw [hfind]

/-- A vote refused because the poll is not active changes nothing. -/
theorem process_vote_fail_inactive (db : DB) (pollId optionId : Nat)
    (userId : String) (now : Int) (poll : Poll)
    (hfind : findPoll db pollId = some poll) (hstatus : poll.status ≠ "active") :
    process_vote db pollId optionId userId now = (false, db) := by
  unfold process_vote
  rw [hfind]
  simp [hstatus]

/-- A vote refused by the single-choice dedup changes nothing. -/
theorem process_vote_fail_dup (db : DB) (pollId optionId : Nat)
    (userId : String) (now : Int) (poll : Poll)
    (hfind : findPoll db pollId = some poll) (hactive : poll.status = "active")
    (hsingle : poll.voteType = "single")
    (hvoted : (db.votedUsers.find? (fun v => v.pollId == pollId && v.userId == userId)).isSome = true) :
    process_vote db pollId optionId userId now = (false, db) := by
  unfold process_vote
  rw [hfind]
  simp [hactive, hsingle, hvoted]

/-!
Claim C10.
-/

/-- C10: only the creator can actually end a poll.  For every database and
every caller whose user id differs from the creator id of the poll, end_poll
returns failure and leaves the database (hence the status and endedAt of the
poll) unchanged — with no assumption on permissions, so this holds even when
can_end_poll has authorized the caller through the end-any-poll admin
permission. -/
theorem end_poll_requires_creator (db : DB) (pollId : Nat) (userId : String)
    (now : Int) (poll : Poll)
    (hfind : findPoll db pollId = some poll) (hne : poll.creatorId ≠ userId) :
    end_poll db pollId userId now = (false, db) := by
  unfold end_poll
  rw [hfind]
  simp [hne]

/-- Witness for C10: U2 is an active admin of the team, can_end_poll therefore
authorizes U2 through end_any_poll, and still end_poll refuses and changes
nothing because U2 is not the creator U1. -/
theorem end_poll_requires_creator_witness :
    can_end_poll dbAdmin "U2" "T1" 1 = true ∧
      end_poll dbAdmin 1 "U2" 5 = (false, dbAdmin) :=
  ⟨by decide, end_poll_requires_creator dbAdmin 1 "U2" 5 pollA (by decide) (by decide)⟩

/-!
Claim C2.
-/

/-- Counterexample to C2: the fixture poll is already Ended (endedAt = 100),
yet a second end_poll by its creator reports success, overwrites endedAt with
the new time, and handle_end_poll fires the poll-ended notification again.
There is no PollAlreadyEnded outcome. -/
theorem end_poll_counterexample_not_idempotent :
    end_poll dbBase 1 "U1" 100 = (true, dbEnded) ∧
      (end_poll dbEnded 1 "U1" 200).1 = true ∧
      ((findPoll (end_poll dbEnded 1 "U1" 200).2 1).map (fun p => p.endedAt)
        = some (some 200)) ∧
      (handle_end_poll dbEnded 1 "U1" "T1" 200).2 = true := by decide

/-- Amended C2: end_poll never inspects the status.  Whenever the poll exists
and the caller is its creator, the call succeeds — even on an already-Ended
poll — setting status to ended and overwriting endedAt with the new time, and
when the permission gate passes, handle_end_poll fires the poll-ended
notification again. -/
theorem end_poll_not_idempotent (db : DB) (pollId : Nat) (userId teamId : String)
    (now : Int) (poll : Poll)
    (hfind : findPoll db pollId = some poll) (hcreator : poll.creatorId = userId)
    (hperm : can_end_poll db userId teamId pollId = true) :
    (end_poll db pollId userId now).1 = true ∧
      findPoll (end_poll db pollId userId now).2 pollId =
        some { poll with status := "ended", endedAt := some now } ∧
      (handle_end_poll db pollId userId teamId now).2 = true := by
  have h1 : end_poll db pollId userId now =
      (true, { db with polls :=
        (updateFirst (fun p => p.id == pollId)
          (fun p => { p with status := "ended", endedAt := some now }) db.polls) }) := by
    unfold end_poll
    rw [hfind]
    simp [hcreator]
  have hfind2 : db.polls.find? (fun p => p.id == pollId) = some poll := hfind
  have hp := List.find?_some hfind2
  refine ⟨by rw [h1], ?_, ?_⟩
  · rw [h1]
    exact find?_updateFirst _ _ db.polls poll hfind2 (by simpa using hp)
  · unfold handle_end_poll
    rw [hperm]
    simp [h1]

/-- Witness for C2 amended: ending the already-ended fixture poll a second
time succeeds, re-stamps endedAt, and re-fires the notification. -/
theorem end_poll_not_idempotent_witness :
    (end_poll dbEnded 1 "U1" 300).1 = true ∧
      findPoll (end_poll dbEnded 1 "U1" 300).2 1 =
        some { pollA with status := "ended", endedAt := some 300 } ∧
      (handle_end_poll dbEnded 1 "U1" "T1" 300).2 = true := by
  have h := end_poll_not_idempotent dbEnded 1 "U1" "T1" 300
    { pollA with status := "ended", endedAt := some 100 }
    (by decide) (by decide) (by decide)
  exact ⟨h.1, by rw [h.2.1], h.2.2⟩

/-!
Claim C1.
-/

/-- Counterexample to C1: in the multiple-choice fixture, voter U1 already has
a VoteRecord for option 1 of poll 1, yet a further process_vote by U1 for that
same option succeeds and a second identical VoteRecord now exists, so the
claimed per-option dedup and the at-most-one-record bound are false. -/
theorem process_vote_counterexample_multiple_dedup :
    (process_vote dbC1 1 1 "U1" 10).1 = true ∧
      ((process_vote dbC1 1 1 "U1" 10).2.userVotes.filter
        (fun v => v.pollId == 1 && v.userId == "U1" && v.optionId == 1)).length = 2 := by
  decide

/-- Amended C1: process_vote applies no per-option dedup to Multiple polls.
On any Active poll with voteType multiple, every vote succeeds and appends a
fresh VoteRecord, whether or not the voter already has a record for that very
option; the only dedup in the code is the single-choice per-(poll, voter)
check. -/
theorem process_vote_multiple_no_per_option_dedup (db : DB) (pollId optionId : Nat)
    (userId : String) (now : Int) (poll : Poll)
    (hfind : findPoll db pollId = some poll) (hactive : poll.status = "active")
    (hmult : poll.voteType = "multiple") :
    (process_vote db pollId optionId userId now).1 = true ∧
      (process_vote db pollId optionId userId now).2.userVotes =
        db.userVotes ++
          [{ pollId := pollId, userId := userId, optionId := optionId, votedAt := now }] := by
  have hns : poll.voteType ≠ "single" := by rw [hmult]; decide
  by_cases hvs : (db.votedUsers.find? (fun v => v.pollId == pollId && v.userId == userId)).isSome
  · obtain ⟨al, hal⟩ := process_vote_success_repeat db pollId optionId userId now poll
      hfind hactive hvs hns
    rw [hal]
    exact ⟨rfl, rfl⟩
  · have hfresh : db.votedUsers.find? (fun v => v.pollId == pollId && v.userId == userId)
        = none := Option.not_isSome_iff_eq_none.1 hvs
    obtain ⟨al, hal⟩ := process_vote_success_fresh db pollId optionId userId now poll
      hfind hactive hfresh
    rw [hal]
    exact ⟨rfl, rfl⟩

/-- Witness for C1 amended: voter U1, who already voted on the poll, votes for
option 2 of the multiple-choice fixture; the call succeeds and appends the
record. -/
theorem process_vote_multiple_no_per_option_dedup_witness :
    (process_vote dbC1 1 2 "U1" 10).1 = true ∧
      (process_vote dbC1 1 2 "U1" 10).2.userVotes =
        dbC1.userVotes ++ [{ pollId := 1, userId := "U1", optionId := 2, votedAt := 10 }] :=
  process_vote_multiple_no_per_option_dedup dbC1 1 2 "U1" 10 pollA
    (by decide) (by decide) (by decide)

/-!
Claim C6.
-/

/-- C6 is a code bug: evaluating the code at the failing input.  The fixture
holds five committed votes, so the previous total 5 has already reached the
multiple 5; a further successful vote for the nonexistent option 99 leaves the
total at 5, yet handle_vote fires the vote-milestone trigger again, because
notify_vote_milestone re-derives the decision from the raw count with no
memory.  Under the claim, no trigger may fire here since no new multiple of 5
was crossed. -/
theorem milestone_refires_without_crossing :
    totalVotes dbFive 1 = 5 ∧
      (process_vote dbFive 1 99 "V6" 3600).1 = true ∧
      totalVotes (handle_vote dbFive 1 99 "V6" 3600).1 1 = 5 ∧
      (handle_vote dbFive 1 99 "V6" 3600).2 = true := by decide

/-!
Claim C5.
-/

/-- Counterexample to C5: option id 99 exists nowhere, yet process_vote on the
fresh fixture reports success, inserts a VoteRecord naming option 99, and no
voteCount changes — there is no ValidationError outcome for an unknown
option. -/
theorem process_vote_counterexample_unknown_option :
    (process_vote dbBase 1 99 "V1" 10).1 = true ∧
      (process_vote dbBase 1 99 "V1" 10).2.userVotes =
        [{ pollId := 1, userId := "V1", optionId := 99, votedAt := 10 }] ∧
      (process_vote dbBase 1 99 "V1" 10).2.options.map (fun o => o.voteCount) = [0, 0] := by
  decide

/-- Amended C5: process_vote validates only the poll.  A call fails, changing
nothing, when the poll is missing or not Active; but the option id is never
validated: when the poll is Active and the dedup check passes, a vote naming
an option id that exists nowhere still succeeds, appends a VoteRecord with
that dangling id, and leaves every option row unchanged. -/
theorem process_vote_no_option_validation (db : DB) (pollId optionId : Nat)
    (userId : String) (now : Int) (poll : Poll)
    (hfind : findPoll db pollId = some poll) (hactive : poll.status = "active")
    (hded : (db.votedUsers.find? (fun v => v.pollId == pollId && v.userId == userId)).isSome = false
            ∨ poll.voteType ≠ "single")
    (hunknown : ∀ o ∈ db.options, o.id ≠ optionId) :
    (process_vote db pollId optionId userId now).1 = true ∧
      (process_vote db pollId optionId userId now).2.userVotes =
        db.userVotes ++
          [{ pollId := pollId, userId := userId, optionId := optionId, votedAt := now }] ∧
      (process_vote db pollId optionId userId now).2.options = db.options ∧
      (∀ (db2 : DB) (pid oid : Nat) (uid : String) (t : Int),
        findPoll db2 pid = none → process_vote db2 pid oid uid t = (false, db2)) ∧
      (∀ (db2 : DB) (pid oid : Nat) (uid : String) (t : Int) (q : Poll),
        findPoll db2 pid = some q → q.status ≠ "active" →
          process_vote db2 pid oid uid t = (false, db2)) := by
  have hnone : updateFirst (fun o => o.id == optionId)
      (fun o => { o with voteCount := o.voteCount + 1 }) db.options = db.options :=
    updateFirst_of_forall_not _ _ db.options
      (fun o ho => by simpa using hunknown o ho)
  have hmain : (process_vote db pollId optionId userId now).1 = true ∧
      (process_vote db pollId optionId userId now).2.userVotes =
        db.userVotes ++
          [{ pollId := pollId, userId := userId, optionId := optionId, votedAt := now }] ∧
      (process_vote db pollId optionId userId now).2.options = db.options := by
    rcases hded with hvs | hns
    · have hfresh : db.votedUsers.find? (fun v => v.pollId == pollId && v.userId == userId)
          = none := Option.not_isSome_iff_eq_none.1 (by rw [hvs]; exact Bool.false_ne_true)
      obtain ⟨al, hal⟩ := process_vote_success_fresh db pollId optionId userId now poll
        hfind hactive hfresh
      rw [hal]
      exact ⟨rfl, rfl, hnone⟩
    · by_cases hvs : (db.votedUsers.find?
          (fun v => v.pollId == pollId && v.userId == userId)).isSome
      · obtain ⟨al, hal⟩ := process_vote_success_repeat db pollId optionId userId now poll
          hfind hactive hvs hns
        rw [hal]
        exact ⟨rfl, rfl, hnone⟩
      · have hfresh : db.votedUsers.find? (fun v => v.pollId == pollId && v.userId == userId)
            = none := Option.not_isSome_iff_eq_none.1 hvs
        obtain ⟨al, hal⟩ := process_vote_success_fresh db pollId optionId userId now poll
          hfind hactive hfresh
        rw [hal]
        exact ⟨rfl, rfl, hnone⟩
  exact ⟨hmain.1, hmain.2.1, hmain.2.2,
    fun db2 pid oid uid t h => process_vote_fail_notfound db2 pid oid uid t h,
    fun db2 pid oid uid t q h hs => process_vote_fail_inactive db2 pid oid uid t q h hs⟩

/-- Witness for C5 amended: the fresh fixture, voter V1 and unknown option id
7. -/
theorem process_vote_no_option_validation_witness :
    (process_vote dbBase 1 7 "V1" 10).1 = true ∧
      (process_vote dbBase 1 7 "V1" 10).2.userVotes =
        dbBase.userVotes ++ [{ pollId := 1, userId := "V1", optionId := 7, votedAt := 10 }] ∧
      (process_vote dbBase 1 7 "V1" 10).2.options = dbBase.options ∧
      (∀ (db2 : DB) (pid oid : Nat) (uid : String) (t : Int),
        findPoll db2 pid = none → process_vote db2 pid oid uid t = (false, db2)) ∧
      (∀ (db2 : DB) (pid oid : Nat) (uid : String) (t : Int) (q : Poll),
        findPoll db2 pid = some q → q.status ≠ "active" →
          process_vote db2 pid oid uid t = (false, db2)) :=
  process_vote_no_option_validation dbBase 1 7 "V1" 10 pollA
    (by decide) (by decide) (Or.inl (by decide)) (by decide)

/-!
Claim C7.
-/

/-- The analytics row found after a recompute is exactly the recomputed one. -/
theorem update_poll_analytics_find (db : DB) (pollId : Nat) (poll : Poll)
    (hfind : findPoll db pollId = some poll) :
    (update_poll_analytics db pollId).analytics.find? (fun a => a.pollId == pollId) =
      some (computeAnalytics poll (pollOptions db pollId)
        (pollVoters db pollId) (pollVotes db pollId)) := by
  have hpid : (poll.id == pollId) = true := by
    have hfind2 : db.polls.find? (fun p => p.id == pollId) = some poll := hfind
    simpa using List.find?_some hfind2
  have hrow : ((computeAnalytics poll (pollOptions db pollId)
      (pollVoters db pollId) (pollVotes db pollId)).pollId == pollId) = true := hpid
  unfold update_poll_analytics
  rw [hfind]
  by_cases h : (db.analytics.find? (fun a => a.pollId == pollId)).isSome
  · simp only [h, if_true]
    cases hf : db.analytics.find? (fun a => a.pollId == pollId) with
    | none => rw [hf] at h; simp at h
    | some a => exact find?_updateFirst _ _ db.analytics a hf hrow
  · simp only [h, Bool.false_eq_true, if_false]
    have hf : db.analytics.find? (fun a => a.pollId == pollId) = none :=
      Option.not_isSome_iff_eq_none.1 h
    rw [List.find?_append, hf]
    simp [hrow]

/-- Summing elementwise division is division of the sum. -/
theorem sum_map_div {α : Type} (g : α → Rat) (c : Rat) (l : List α) :
    (l.map (fun x => g x / c)).sum = (l.map g).sum / c := by
  induction l with
  | nil => simp
  | cons x xs ih => simp [ih, add_div]

/-- Counterexample to C7: the fixture poll was created at time 0 and its only
vote was cast at time 60; the mean response time in seconds is 60, but the
recompute stores 1 (the mean in minutes), so the stored value is not the mean
expressed in seconds. -/
theorem analytics_counterexample_avg_minutes :
    ((update_poll_analytics dbSixty 1).analytics.find? (fun a => a.pollId == 1)).map
        (fun a => a.avgResponseTime) = some 1 ∧ (1 : Rat) ≠ 60 := by
  refine ⟨?_, by norm_num⟩
  rw [update_poll_analytics_find dbSixty 1 pollA (by decide)]
  have hv : pollVotes dbSixty 1
      = [{ pollId := 1, userId := "V1", optionId := 1, votedAt := 60 }] := by decide
  show some ((computeAnalytics pollA (pollOptions dbSixty 1) (pollVoters dbSixty 1)
      (pollVotes dbSixty 1)).avgResponseTime) = some 1
  rw [hv]
  norm_num [computeAnalytics, pollA]

/-- Amended C7: the recompute stores the arithmetic mean of
(castAt - createdAt) over all VoteRecords of the poll expressed in minutes,
that is the mean in seconds divided by 60, and stores 0 when the ledger of
the poll is empty. -/
theorem analytics_avg_response_minutes (db : DB) (pollId : Nat) (poll : Poll)
    (hfind : findPoll db pollId = some poll) :
    ∃ row, (update_poll_analytics db pollId).analytics.find?
        (fun a => a.pollId == pollId) = some row ∧
      row.avgResponseTime =
        (if pollVotes db pollId = [] then 0
         else ((pollVotes db pollId).map
             (fun v => ((v.votedAt - poll.createdAt : Int) : Rat))).sum
           / ((pollVotes db pollId).length : Rat) / 60) := by
  refine ⟨computeAnalytics poll (pollOptions db pollId)
    (pollVoters db pollId) (pollVotes db pollId),
    update_poll_analytics_find db pollId poll hfind, ?_⟩
  show (if (pollVotes db pollId).isEmpty then 0
      else ((pollVotes db pollId).map
          (fun v => ((v.votedAt - poll.createdAt : Int) : Rat) / 60)).sum
        / ((pollVotes db pollId).length : Rat)) = _
  rw [sum_map_div (fun v : UserVote => ((v.votedAt - poll.createdAt : Int) : Rat)) 60]
  by_cases h : pollVotes db pollId = []
  · simp [h]
  · rw [if_neg h, if_neg (by simpa [List.isEmpty_iff] using h)]
    rw [div_right_comm]

/-- Witness for C7 amended, at the one-vote fixture: the stored value is the
60-second response expressed as 1 minute. -/
theorem analytics_avg_response_minutes_witness :
    ∃ row, (update_poll_analytics dbSixty 1).analytics.find?
        (fun a => a.pollId == 1) = some row ∧
      row.avgResponseTime =
        (if pollVotes dbSixty 1 = [] then 0
         else ((pollVotes dbSixty 1).map
             (fun v => ((v.votedAt - pollA.createdAt : Int) : Rat))).sum
           / ((pollVotes dbSixty 1).length : Rat) / 60) :=
  analytics_avg_response_minutes dbSixty 1 pollA (by decide)

/-!
Claim C9.
-/

/-- Splitting a filter over a disjunction of pointwise-exclusive predicates. -/
theorem length_filter_or {α : Type} (p q : α → Bool) (l : List α)
    (h : ∀ a ∈ l, p a = true → q a = false) :
    (l.filter (fun a => p a || q a)).length = (l.filter p).length + (l.filter q).length := by
  induction l with
  | nil => rfl
  | cons a rest ih =>
      have ih2 := ih (fun x hx => h x (List.mem_cons_of_mem a hx))
      by_cases hp : p a = true
      · have hq := h a (List.mem_cons_self a rest) hp
        simp only [List.filter_cons, hp, hq, Bool.true_or, if_true, Bool.false_eq_true,
          if_false, List.length_cons, ih2]
        omega
      · by_cases hq : q a = true
        · simp only [List.filter_cons, Bool.eq_false_iff.2 hp, hq, Bool.false_or, if_true,
            Bool.false_eq_true, if_false, List.length_cons, ih2]
          omega
        · simp only [List.filter_cons, Bool.eq_false_iff.2 hp,
            Bool.eq_false_iff.2 hq, Bool.or_self, Bool.false_eq_true, if_false, ih2]

/-- Summing the per-option record counts over distinct ids counts the records
whose option id lies in the id list. -/
theorem sum_countVotes_eq (votes : List UserVote) :
    ∀ ids : List Nat, ids.Nodup →
      (ids.map (fun i => countVotesFor votes i)).sum =
        (votes.filter (fun v => ids.contains v.optionId)).length
  | [], _ => by simp [countVotesFor]
  | i :: rest, hnd => by
      have hni : i ∉ rest := (List.nodup_cons.1 hnd).1
      have ih := sum_countVotes_eq votes rest (List.nodup_cons.1 hnd).2
      rw [List.map_cons, List.sum_cons, ih]
      have hflt : votes.filter (fun v => (i :: rest).contains v.optionId)
          = votes.filter (fun v => (v.optionId == i) || rest.contains v.optionId) := by
        apply List.filter_congr
        intro v _
        by_cases hvi : v.optionId = i <;> simp [List.contains_cons, hvi]
      rw [hflt, length_filter_or (fun v : UserVote => v.optionId == i)
        (fun v : UserVote => rest.contains v.optionId) votes ?_]
      · rfl
      · intro v _ hpv
        have hvi : v.optionId = i := by simpa using hpv
        show rest.contains v.optionId = false
        rw [hvi]
        simpa using hni

/-- Under consistent counters, distinct option ids and ledger records all
naming options of the poll, the cached total is at least the ledger length. -/
theorem ledger_le_totalVotes (db : DB) (pollId : Nat)
    (hcons : countersConsistent db)
    (hnodup : (db.options.map (fun o => o.id)).Nodup)
    (hmem : ∀ v ∈ pollVotes db pollId,
      ((pollOptions db pollId).map (fun o => o.id)).contains v.optionId = true) :
    (pollVotes db pollId).length ≤ totalVotes db pollId := by
  have hsub : List.Sublist (pollOptions db pollId) db.options := List.filter_sublist _
  have hnodup2 : ((pollOptions db pollId).map (fun o => o.id)).Nodup :=
    hnodup.sublist (hsub.map _)
  have h1 : (pollOptions db pollId).map (fun o => o.voteCount)
      = (pollOptions db pollId).map (fun o => countVotesFor db.userVotes o.id) :=
    List.map_congr_left (fun o ho => hcons o (List.mem_of_mem_filter ho))
  have h2 : ((pollOptions db pollId).map (fun o => o.id)).map
        (fun i => countVotesFor db.userVotes i)
      = (pollOptions db pollId).map (fun o => countVotesFor db.userVotes o.id) := by
    rw [List.map_map]
    rfl
  unfold totalVotes
  rw [h1, ← h2, sum_countVotes_eq db.userVotes _ hnodup2]
  have h3 : List.Sublist (pollVotes db pollId) db.userVotes := List.filter_sublist _
  have h4 := h3.filter
    (fun v => ((pollOptions db pollId).map (fun o => o.id)).contains v.optionId)
  rw [List.filter_eq_self.2 hmem] at h4
  exact h4.length_le

/-- C9: for a poll whose ledger is non-empty (with consistent counters and
every ledger record naming an option of the poll, so that the cached total is
positive), the recompute stores participationRate equal to
uniqueVoters / totalVotes expressed as a percentage and capped at 100. -/
theorem analytics_participation_rate (db : DB) (pollId : Nat) (poll : Poll)
    (hfind : findPoll db pollId = some poll)
    (hcons : countersConsistent db)
    (hnodup : (db.options.map (fun o => o.id)).Nodup)
    (hmem : ∀ v ∈ pollVotes db pollId,
      ((pollOptions db pollId).map (fun o => o.id)).contains v.optionId = true)
    (hne : pollVotes db pollId ≠ []) :
    ∃ row, (update_poll_analytics db pollId).analytics.find?
        (fun a => a.pollId == pollId) = some row ∧
      row.uniqueVoters = (pollVoters db pollId).length ∧
      row.totalVotes = totalVotes db pollId ∧
      row.participationRate =
        min 100 (((pollVoters db pollId).length : Rat)
          / ((totalVotes db pollId : Nat) : Rat) * 100) := by
  refine ⟨_, update_poll_analytics_find db pollId poll hfind, rfl, rfl, ?_⟩
  have h1 : 1 ≤ totalVotes db pollId := by
    have hle := ledger_le_totalVotes db pollId hcons hnodup hmem
    have hlen : 0 < (pollVotes db pollId).length := List.length_pos.2 hne
    omega
  show min 100 ((((pollVoters db pollId).length : Nat) : Rat)
      / ((max 1 (((pollOptions db pollId).map (fun o => o.voteCount)).sum) : Nat) : Rat)
      * 100) = _
  have h2 : 1 ≤ ((pollOptions db pollId).map (fun o => o.voteCount)).sum := h1
  rw [Nat.max_eq_right h2]
  rfl

/-- Witness for C9 at the one-vote fixture: totals are positive and the
stored rate is the capped percentage. -/
theorem analytics_participation_rate_witness :
    ∃ row, (update_poll_analytics dbSixty 1).analytics.find?
        (fun a => a.pollId == 1) = some row ∧
      row.uniqueVoters = (pollVoters dbSixty 1).length ∧
      row.totalVotes = totalVotes dbSixty 1 ∧
      row.participationRate =
        min 100 (((pollVoters dbSixty 1).length : Rat)
          / ((totalVotes dbSixty 1 : Nat) : Rat) * 100) :=
  analytics_participation_rate dbSixty 1 pollA (by decide) (by decide) (by decide)
    (by decide) (by decide)

/-!
Claim C8.
-/

/-- The fan-out never writes to the database, whatever the push outcomes. -/
theorem sync_no_writes (env : String → String → Bool) (db : DB) (pollId : Nat) :
    (update_shared_poll_messages env db pollId).1 = db := by
  unfold update_shared_poll_messages
  cases findPoll db pollId with
  | none => rfl
  | some poll =>
      by_cases h : (match poll.messageTs with
        | none => true
        | some ts => update_poll_message env db pollId poll.channelId ts) = true
      · simp only [h, Bool.not_true, Bool.false_eq_true, if_false]
      · simp only [Bool.eq_false_iff.2 h, Bool.not_false, if_true]

/-- Counterexample to C8: the poll has two active replicas R1 and R2 whose
pushes would succeed, but the primary push into C1 fails; the exception
escapes before any replica is visited, so the failing push does prevent the
remaining replicas from being pushed, and the error message does surface to
the voter. -/
theorem sync_counterexample_primary_failure :
    (dbShares.shares.filter (fun s => s.pollId == 1 && s.isActive)).length = 2 ∧
      (update_shared_poll_messages envPrimaryFails dbShares 1).2 = none ∧
      sync_error_reaches_voter envPrimaryFails dbShares 1 = true := by decide

/-- Amended C8: failure independence holds among the replica pushes only.
When the primary push succeeds, the fan-out attempts every active replica
that has a message timestamp, each with its own outcome, so one replica
failure neither stops the others nor surfaces any error to the voter; and
whatever the push outcomes — primary failure included — the committed ledger
is untouched, since the fan-out performs no database writes. -/
theorem sync_replica_failure_independent (env : String → String → Bool) (db : DB)
    (pollId : Nat) (poll : Poll)
    (hfind : findPoll db pollId = some poll)
    (hprimary : ∀ ts, poll.messageTs = some ts → env poll.channelId ts = true) :
    (∀ env2 : String → String → Bool,
        (update_shared_poll_messages env2 db pollId).1 = db) ∧
      (update_shared_poll_messages env db pollId).2 =
        some ((db.shares.filter (fun s => s.pollId == pollId && s.isActive)).filterMap
          (fun s => s.messageTs.map (fun ts => (s.channelId, env s.channelId ts)))) ∧
      (∀ s ∈ db.shares, s.pollId = pollId → s.isActive = true →
        ∀ ts, s.messageTs = some ts →
          (s.channelId, env s.channelId ts) ∈
            ((update_shared_poll_messages env db pollId).2.getD [])) ∧
      sync_error_reaches_voter env db pollId = false := by
  have hpr : (match poll.messageTs with
      | none => true
      | some ts => update_poll_message env db pollId poll.channelId ts) = true := by
    cases hts : poll.messageTs with
    | none => rfl
    | some ts =>
        show update_poll_message env db pollId poll.channelId ts = true
        unfold update_poll_message
        rw [hfind]
        exact hprimary ts hts
  have hmain : update_shared_poll_messages env db pollId =
      (db, some ((db.shares.filter (fun s => s.pollId == pollId && s.isActive)).filterMap
        (fun s => s.messageTs.map (fun ts => (s.channelId, env s.channelId ts))))) := by
    unfold update_shared_poll_messages
    rw [hfind]
    simp only [hpr, Bool.not_true, Bool.false_eq_true, if_false]
  refine ⟨fun env2 => sync_no_writes env2 db pollId, by rw [hmain], ?_, ?_⟩
  · intro s hs hpid hact ts hts
    rw [hmain]
    simp only [Option.getD_some]
    apply List.mem_filterMap.2
    refine ⟨s, ?_, ?_⟩
    · exact List.mem_filter.2 ⟨hs, by simp [hpid, hact]⟩
    · rw [hts]
      rfl
  · unfold sync_error_reaches_voter
    rw [hmain]
    rfl

/-- Witness for C8 amended: replica R2 fails while R1 succeeds; both are
attempted, the database is unchanged and the voter sees no error. -/
theorem sync_replica_failure_independent_witness :
    (update_shared_poll_messages envR2Fails dbShares 1).1 = dbShares ∧
      (update_shared_poll_messages envR2Fails dbShares 1).2 =
        some [("R1", true), ("R2", false)] ∧
      ("R2", false) ∈ ((update_shared_poll_messages envR2Fails dbShares 1).2.getD []) ∧
      sync_error_reaches_voter envR2Fails dbShares 1 = false := by
  have h := sync_replica_failure_independent envR2Fails dbShares 1 pollA (by decide)
    (fun ts hts => by
      have : ts = "ts0" := by simpa [pollA] using hts.symm
      rw [this]
      decide)
  refine ⟨h.1 envR2Fails, ?_, ?_, h.2.2.2⟩
  · rw [h.2.1]
    decide
  · have hmem := h.2.2.1 (PollShare.mk 1 "R2" (some "t2") "U1" true)
    exact hmem (by decide) rfl rfl "t2" rfl

/-!
Claim C4.
-/

/-- Once the voter has a VotedUser row on an active single-choice poll, every
further vote of a sequence fails and the state never moves. -/
theorem voteSeq_all_fail (db : DB) (pollId : Nat) (userId : String) (poll : Poll)
    (hfind : findPoll db pollId = some poll) (hactive : poll.status = "active")
    (hsingle : poll.voteType = "single")
    (hvoted : (db.votedUsers.find?
      (fun v => v.pollId == pollId && v.userId == userId)).isSome = true) :
    ∀ votes : List (Nat × Int),
      voteSeq db pollId userId votes = (List.replicate votes.length false, db)
  | [] => by simp [voteSeq]
  | (o, t) :: rest => by
      have h1 := process_vote_fail_dup db pollId o userId t poll hfind hactive hsingle hvoted
      have ih := voteSeq_all_fail db pollId userId poll hfind hactive hsingle hvoted rest
      simp [voteSeq, h1, ih, List.replicate_succ]

/-- Incrementing the unique option with the target id adds one to the vote
total of its poll. -/
theorem sum_filter_updateFirst_inc (pollId oid : Nat) :
    ∀ opts : List PollOption,
      (opts.map (fun o => o.id)).Nodup →
      (∃ o ∈ opts, o.id = oid ∧ o.pollId = pollId) →
      (((updateFirst (fun o => o.id == oid)
          (fun o => { o with voteCount := o.voteCount + 1 }) opts).filter
            (fun o => o.pollId == pollId)).map (fun o => o.voteCount)).sum =
        ((opts.filter (fun o => o.pollId == pollId)).map (fun o => o.voteCount)).sum + 1
  | [], _, hex => by simp at hex
  | a :: rest, hnd, hex => by
      by_cases ha : (a.id == oid) = true
      · have haid : a.id = oid := by simpa using ha
        have hap : a.pollId = pollId := by
          obtain ⟨o, ho, hoid, hop⟩ := hex
          rcases List.mem_cons.1 ho with h | h
          · rw [← hop, h]
          · exfalso
            apply (List.nodup_cons.1 hnd).1
            show a.id ∈ List.map (fun o => o.id) rest
            rw [haid, ← hoid]
            exact List.mem_map_of_mem _ h
        simp only [updateFirst, ha, if_true]
        rw [List.filter_cons, List.filter_cons]
        have hap2 : (a.pollId == pollId) = true := by simpa using hap
        simp only [hap2, if_true, List.map_cons, List.sum_cons]
        omega
      · have hrest : ∃ o ∈ rest, o.id = oid ∧ o.pollId = pollId := by
          obtain ⟨o, ho, hoid, hop⟩ := hex
          rcases List.mem_cons.1 ho with h | h
          · exfalso
            apply ha
            rw [h] at hoid
            simpa using hoid
          · exact ⟨o, h, hoid, hop⟩
        have ih := sum_filter_updateFirst_inc pollId oid rest
          (List.nodup_cons.1 hnd).2 hrest
        simp only [updateFirst, ha, Bool.false_eq_true, if_false]
        rw [List.filter_cons, List.filter_cons]
        by_cases hap : (a.pollId == pollId) = true
        · simp only [hap, if_true, List.map_cons, List.sum_cons, ih]
          omega
        · simp only [hap, Bool.false_eq_true, if_false, ih]

/-- C4: single-choice dedup.  On an Active single-choice poll, for a voter
who has not voted yet and a sequence of votes all naming options of the poll,
exactly the first vote succeeds and every later one fails with the state
unchanged, exactly one VoteRecord for (pollId, voterId) exists afterwards,
and the vote total of the poll grows by exactly one. -/
theorem single_choice_first_vote_only (db : DB) (pollId : Nat) (userId : String)
    (poll : Poll) (o0 : Nat) (t0 : Int) (rest : List (Nat × Int))
    (hfind : findPoll db pollId = some poll)
    (hactive : poll.status = "active") (hsingle : poll.voteType = "single")
    (hfresh : db.votedUsers.find?
      (fun v => v.pollId == pollId && v.userId == userId) = none)
    (hzero : (db.userVotes.filter
      (fun v => v.pollId == pollId && v.userId == userId)).length = 0)
    (hvalid : ∃ o ∈ db.options, o.id = o0 ∧ o.pollId = pollId)
    (hnodup : (db.options.map (fun o => o.id)).Nodup) :
    (voteSeq db pollId userId ((o0, t0) :: rest)).1 =
        true :: List.replicate rest.length false ∧
      ((voteSeq db pollId userId ((o0, t0) :: rest)).2.userVotes.filter
        (fun v => v.pollId == pollId && v.userId == userId)).length = 1 ∧
      totalVotes (voteSeq db pollId userId ((o0, t0) :: rest)).2 pollId =
        totalVotes db pollId + 1 := by
  obtain ⟨al, hal⟩ := process_vote_success_fresh db pollId o0 userId t0 poll
    hfind hactive hfresh
  have hfind1 : findPoll (process_vote db pollId o0 userId t0).2 pollId = some poll := by
    rw [hal]
    exact hfind
  have hvoted1 : ((process_vote db pollId o0 userId t0).2.votedUsers.find?
      (fun v => v.pollId == pollId && v.userId == userId)).isSome = true := by
    rw [hal]
    show ((db.votedUsers ++ [VotedUser.mk pollId userId t0]).find?
      (fun v => v.pollId == pollId && v.userId == userId)).isSome = true
    rw [List.find?_append, hfresh]
    simp
  have hseq := voteSeq_all_fail (process_vote db pollId o0 userId t0).2 pollId userId poll
    hfind1 hactive hsingle hvoted1 rest
  have hstep : voteSeq db pollId userId ((o0, t0) :: rest) =
      ((process_vote db pollId o0 userId t0).1 ::
        (voteSeq (process_vote db pollId o0 userId t0).2 pollId userId rest).1,
       (voteSeq (process_vote db pollId o0 userId t0).2 pollId userId rest).2) := rfl
  rw [hstep, hseq]
  refine ⟨by rw [hal], ?_, ?_⟩
  · rw [hal]
    show ((db.userVotes ++ [UserVote.mk pollId userId o0 t0]).filter
        (fun v => v.pollId == pollId && v.userId == userId)).length = 1
    rw [List.filter_append, List.length_append, hzero]
    simp
  · rw [hal]
    show (((updateFirst (fun o => o.id == o0)
        (fun o => { o with voteCount := o.voteCount + 1 }) db.options).filter
          (fun o => o.pollId == pollId)).map (fun o => o.voteCount)).sum =
      totalVotes db pollId + 1
    exact sum_filter_updateFirst_inc pollId o0 db.options hnodup hvalid

/-- Witness for C4: on the fresh single-choice fixture, voter V1 votes for
option 1 and then for option 2; only the first vote lands. -/
theorem single_choice_first_vote_only_witness :
    (voteSeq dbSingle 1 "V1" [(1, 10), (2, 20)]).1 =
        true :: List.replicate 1 false ∧
      ((voteSeq dbSingle 1 "V1" [(1, 10), (2, 20)]).2.userVotes.filter
        (fun v => v.pollId == 1 && v.userId == "V1")).length = 1 ∧
      totalVotes (voteSeq dbSingle 1 "V1" [(1, 10), (2, 20)]).2 1 =
        totalVotes dbSingle 1 + 1 :=
  single_choice_first_vote_only dbSingle 1 "V1" pollS 1 10 [(2, 20)]
    (by decide) (by decide) (by decide) (by decide) (by decide) (by decide) (by decide)

/-!
Claim C3.
-/

/-- Appending a ledger record and incrementing the unique matching option
keeps every counter consistent. -/
theorem consistent_after_vote (v : UserVote) :
    ∀ (opts : List PollOption) (votes : List UserVote),
      (opts.map (fun o => o.id)).Nodup →
      (∀ o ∈ opts, o.voteCount = countVotesFor votes o.id) →
      (∃ o ∈ opts, o.id = v.optionId) →
      ∀ o ∈ updateFirst (fun o => o.id == v.optionId)
          (fun o => { o with voteCount := o.voteCount + 1 }) opts,
        o.voteCount = countVotesFor (votes ++ [v]) o.id
  | [], _, _, _, hex => by simp at hex
  | a :: rest, votes, hnd, hcons, hex => by
      by_cases ha : (a.id == v.optionId) = true
      · have haid : a.id = v.optionId := by simpa using ha
        simp only [updateFirst, ha, if_true]
        intro o ho
        rcases List.mem_cons.1 ho with heq | ho2
        · rw [heq]
          show a.voteCount + 1 = countVotesFor (votes ++ [v]) a.id
          rw [countVotesFor_append, hcons a (List.mem_cons_self a rest), haid]
          simp
        · have hne : (v.optionId == o.id) = false := by
            have hnid : o.id ≠ v.optionId := by
              intro hc
              apply (List.nodup_cons.1 hnd).1
              show a.id ∈ List.map (fun o => o.id) rest
              rw [haid, ← hc]
              exact List.mem_map_of_mem _ ho2
            simpa using fun hc => hnid hc.symm
          rw [countVotesFor_append, hne]
          simp [hcons o (List.mem_cons_of_mem a ho2)]
      · simp only [updateFirst, ha, Bool.false_eq_true, if_false]
        intro o ho
        rcases List.mem_cons.1 ho with heq | ho2
        · have hne : (v.optionId == a.id) = false := by
            have : a.id ≠ v.optionId := by simpa using ha
            simpa using fun hc => this hc.symm
          rw [heq, countVotesFor_append, hne]
          simp [hcons a (List.mem_cons_self a rest)]
        · have hex2 : ∃ o ∈ rest, o.id = v.optionId := by
            obtain ⟨w, hw, hwid⟩ := hex
            rcases List.mem_cons.1 hw with heq2 | hw2
            · rw [heq2] at hwid
              exact absurd hwid (by simpa using ha)
            · exact ⟨w, hw2, hwid⟩
          exact consistent_after_vote v rest votes (List.nodup_cons.1 hnd).2
            (fun o ho => hcons o (List.mem_cons_of_mem a ho)) hex2 o ho2

/-- Committing a vote for an existing option preserves well-formedness; the
VotedUser table and the analytics cache are irrelevant to it. -/
theorem wellFormed_write (db : DB) (vu : List VotedUser) (al : List PollAnalytics)
    (v : UserVote) (hexv : ∃ o ∈ db.options, o.id = v.optionId) (h : wellFormed db) :
    wellFormed
      { db with
          votedUsers := vu,
          userVotes := db.userVotes ++ [v],
          options := (updateFirst (fun o => o.id == v.optionId)
            (fun o => { o with voteCount := o.voteCount + 1 }) db.options),
          analytics := al } := by
  have hcons := h.1
  have hob := h.2.1
  have hvb := h.2.2.1
  have hnd := h.2.2.2
  have hids : (updateFirst (fun o => o.id == v.optionId)
      (fun o => { o with voteCount := o.voteCount + 1 }) db.options).map (fun o => o.id)
      = db.options.map (fun o => o.id) :=
    updateFirst_map_eq (fun o => o.id == v.optionId)
      (fun o => { o with voteCount := o.voteCount + 1 })
      (fun o => o.id) (fun a => rfl) db.options
  refine ⟨?_, ?_, ?_, ?_⟩
  · exact consistent_after_vote v db.options db.userVotes hnd hcons hexv
  · intro o ho
    have : o.id ∈ db.options.map (fun o => o.id) := by
      rw [← hids]
      exact List.mem_map_of_mem _ ho
    obtain ⟨o2, ho2, he⟩ := List.mem_map.1 this
    show o.id < db.nextOptionId
    rw [← he]
    exact hob o2 ho2
  · intro w hw
    rcases List.mem_append.1 hw with hw2 | hw2
    · exact hvb w hw2
    · have : w = v := by simpa using hw2
      rw [this]
      obtain ⟨o, ho, hoid⟩ := hexv
      show v.optionId < db.nextOptionId
      rw [← hoid]
      exact hob o ho
  · show ((updateFirst (fun o => o.id == v.optionId)
      (fun o => { o with voteCount := o.voteCount + 1 }) db.options).map
        (fun o => o.id)).Nodup
    rw [hids]
    exact hnd

/-- A vote naming an existing option preserves well-formedness. -/
theorem wellFormed_vote (db : DB) (pollId optionId : Nat) (userId : String)
    (now : Int) (hex : ∃ opt ∈ db.options, opt.id = optionId) (h : wellFormed db) :
    wellFormed (process_vote db pollId optionId userId now).2 := by
  cases hf : findPoll db pollId with
  | none =>
      rw [process_vote_fail_notfound db pollId optionId userId now hf]
      exact h
  | some poll =>
      by_cases hactive : poll.status = "active"
      · by_cases hvs : (db.votedUsers.find?
            (fun v => v.pollId == pollId && v.userId == userId)).isSome = true
        · by_cases hsingle : poll.voteType = "single"
          · rw [process_vote_fail_dup db pollId optionId userId now poll hf hactive
              hsingle hvs]
            exact h
          · obtain ⟨al, hal⟩ := process_vote_success_repeat db pollId optionId userId now
              poll hf hactive hvs hsingle
            rw [hal]
            exact wellFormed_write db db.votedUsers al
              (UserVote.mk pollId userId optionId now) hex h
        · have hfresh : db.votedUsers.find?
              (fun v => v.pollId == pollId && v.userId == userId) = none :=
            Option.not_isSome_iff_eq_none.1 hvs
          obtain ⟨al, hal⟩ := process_vote_success_fresh db pollId optionId userId now
            poll hf hactive hfresh
          rw [hal]
          exact wellFormed_write db
            (db.votedUsers ++ [VotedUser.mk pollId userId now]) al
            (UserVote.mk pollId userId optionId now) hex h
      · rw [process_vote_fail_inactive db pollId optionId userId now poll hf hactive]
        exact h

/-- Transport of well-formedness along equal option (id, count) pairs, equal
ledger and equal id sequence. -/
theorem wellFormed_of_pairs (db db2 : DB)
    (hpairs : db2.options.map (fun o => (o.id, o.voteCount))
      = db.options.map (fun o => (o.id, o.voteCount)))
    (hv : db2.userVotes = db.userVotes) (hn : db2.nextOptionId = db.nextOptionId)
    (h : wellFormed db) : wellFormed db2 := by
  have hids : db2.options.map (fun o => o.id) = db.options.map (fun o => o.id) := by
    have h1 : (db2.options.map (fun o => (o.id, o.voteCount))).map Prod.fst
        = (db.options.map (fun o => (o.id, o.voteCount))).map Prod.fst := by rw [hpairs]
    simpa [List.map_map, Function.comp] using h1
  refine ⟨?_, ?_, ?_, ?_⟩
  · intro o ho
    have hmem : (o.id, o.voteCount) ∈ db.options.map (fun o => (o.id, o.voteCount)) := by
      rw [← hpairs]
      exact List.mem_map_of_mem _ ho
    obtain ⟨o2, ho2, he⟩ := List.mem_map.1 hmem
    have h1 : o2.id = o.id := congrArg Prod.fst he
    have h2 : o2.voteCount = o.voteCount := congrArg Prod.snd he
    rw [hv, ← h2, ← h1]
    exact h.1 o2 ho2
  · intro o ho
    have hmem : o.id ∈ db.options.map (fun o => o.id) := by
      rw [← hids]
      exact List.mem_map_of_mem _ ho
    obtain ⟨o2, ho2, he⟩ := List.mem_map.1 hmem
    rw [hn, ← he]
    exact h.2.1 o2 ho2
  · intro v hv2
    rw [hv] at hv2
    rw [hn]
    exact h.2.2.1 v hv2
  · rw [hids]
    exact h.2.2.2

/-- end_poll either refuses or rewrites only the polls table. -/
theorem end_poll_shape (db : DB) (pollId : Nat) (userId : String) (now : Int) :
    (end_poll db pollId userId now).2 = db ∨
      ∃ pl, (end_poll db pollId userId now).2 = { db with polls := pl } := by
  unfold end_poll
  try dsimp only
  repeat' split
  all_goals first
    | (left; rfl)
    | (right; exact ⟨_, rfl⟩)

/-- add_poll_option either refuses or appends one fresh zero-count option and
advances the id sequence. -/
theorem add_poll_option_shape (db : DB) (pollId : Nat) (optionText userId : String) :
    (add_poll_option db pollId optionText userId).2 = db ∨
      ∃ k, (add_poll_option db pollId optionText userId).2 =
        { db with
            options := db.options ++
              [{ id := db.nextOptionId, pollId := pollId, text := strStrip optionText,
                 voteCount := 0, orderIndex := k }],
            nextOptionId := db.nextOptionId + 1 } := by
  unfold add_poll_option
  try dsimp only
  repeat' split
  all_goals first
    | (left; rfl)
    | (right; exact ⟨_, rfl⟩)

/-- remove_poll_option either refuses or deletes the first matching option
row. -/
theorem remove_poll_option_shape (db : DB) (pollId optionId : Nat) (userId : String) :
    (remove_poll_option db pollId optionId userId).2 = db ∨
      (remove_poll_option db pollId optionId userId).2 =
        { db with options :=
            (eraseFirstP (fun o => o.id == optionId && o.pollId == pollId) db.options) } := by
  unfold remove_poll_option
  try dsimp only
  repeat' split
  all_goals first
    | (left; rfl)
    | (right; rfl)

/-- edit_poll_option either refuses or renames the first matching option. -/
theorem edit_poll_option_shape (db : DB) (pollId optionId : Nat)
    (newText userId : String) :
    (edit_poll_option db pollId optionId newText userId).2 = db ∨
      (edit_poll_option db pollId optionId newText userId).2 =
        { db with options :=
            (updateFirst (fun o => o.id == optionId && o.pollId == pollId)
              (fun o => { o with text := strStrip newText }) db.options) } := by
  unfold edit_poll_option
  try dsimp only
  repeat' split
  all_goals first
    | (left; rfl)
    | (right; rfl)

/-- reorder_poll_options either refuses or rewrites order indexes only. -/
theorem reorder_poll_options_shape (db : DB) (pollId : Nat) (order : List Nat)
    (userId : String) :
    (reorder_poll_options db pollId order userId).2 = db ∨
      (reorder_poll_options db pollId order userId).2 =
        { db with options :=
            (order.enum.foldl (fun acc x =>
              updateFirst (fun o => o.id == x.2 && o.pollId == pollId)
                (fun o => { o with orderIndex := x.1 }) acc) db.options) } := by
  unfold reorder_poll_options
  try dsimp only
  repeat' split
  all_goals first
    | (left; rfl)
    | (right; rfl)

/-- A fold of order-index updates keeps ids and counts of every option. -/
theorem foldl_updateFirst_pairs (pollId : Nat) :
    ∀ (steps : List (Nat × Nat)) (opts : List PollOption),
      ((steps.foldl (fun acc x =>
          updateFirst (fun o => o.id == x.2 && o.pollId == pollId)
            (fun o => { o with orderIndex := x.1 }) acc) opts).map
        (fun o => (o.id, o.voteCount))) = opts.map (fun o => (o.id, o.voteCount))
  | [], _ => rfl
  | s :: rest, opts => by
      rw [List.foldl_cons, foldl_updateFirst_pairs pollId rest _]
      exact updateFirst_map_eq _ (fun o => { o with orderIndex := s.1 })
        (fun o => (o.id, o.voteCount)) (fun a => rfl) opts

/-- add_poll_option preserves well-formedness: the new option starts with
count zero, no committed ledger record can name its fresh id, and the fresh
id collides with no existing one. -/
theorem wellFormed_add (db : DB) (pollId : Nat) (optionText userId : String)
    (h : wellFormed db) : wellFormed (add_poll_option db pollId optionText userId).2 := by
  rcases add_poll_option_shape db pollId optionText userId with hs | ⟨k, hs⟩
  · rw [hs]
    exact h
  · rw [hs]
    refine ⟨?_, ?_, ?_, ?_⟩
    · intro o ho
      rcases List.mem_append.1 ho with ho2 | ho2
      · exact h.1 o ho2
      · have heq : o = PollOption.mk db.nextOptionId pollId (strStrip optionText) 0 k := by
          simpa using ho2
        rw [heq]
        show 0 = countVotesFor db.userVotes db.nextOptionId
        rw [countVotesFor_eq_zero db.userVotes db.nextOptionId h.2.2.1]
    · intro o ho
      show o.id < db.nextOptionId + 1
      rcases List.mem_append.1 ho with ho2 | ho2
      · have := h.2.1 o ho2
        omega
      · have heq : o = PollOption.mk db.nextOptionId pollId (strStrip optionText) 0 k := by
          simpa using ho2
        rw [heq]
        show db.nextOptionId < db.nextOptionId + 1
        omega
    · intro v hv
      show v.optionId < db.nextOptionId + 1
      have := h.2.2.1 v hv
      omega
    · show ((db.options ++
        [PollOption.mk db.nextOptionId pollId (strStrip optionText) 0 k]).map
          (fun o => o.id)).Nodup
      rw [List.map_append, List.nodup_append]
      refine ⟨h.2.2.2, by simp, ?_⟩
      intro a ha hb
      have ha2 : a < db.nextOptionId := by
        obtain ⟨o2, ho2, he⟩ := List.mem_map.1 ha
        rw [← he]
        exact h.2.1 o2 ho2
      have hb2 : a = db.nextOptionId := by simpa using hb
      omega

/-- remove_poll_option preserves well-formedness: the survivors keep their
counts and the ledger is untouched. -/
theorem wellFormed_remove (db : DB) (pollId optionId : Nat) (userId : String)
    (h : wellFormed db) : wellFormed (remove_poll_option db pollId optionId userId).2 := by
  rcases remove_poll_option_shape db pollId optionId userId with hs | hs
  · rw [hs]
    exact h
  · rw [hs]
    refine ⟨?_, ?_, ?_, ?_⟩
    · intro o ho
      exact h.1 o (mem_eraseFirstP _ _ _ ho)
    · intro o ho
      exact h.2.1 o (mem_eraseFirstP _ _ _ ho)
    · exact h.2.2.1
    · exact h.2.2.2.sublist ((eraseFirstP_sublist _ _).map _)

/-- Every committed mutation whose votes name existing options preserves
well-formedness. -/
theorem wellFormed_applyMutation (db : DB) (m : Mutation)
    (hgood : voteTargetsExisting db m) (h : wellFormed db) :
    wellFormed (applyMutation db m) := by
  cases m with
  | vote p o u t => exact wellFormed_vote db p o u t hgood h
  | endP p u t =>
      rcases end_poll_shape db p u t with hs | ⟨pl, hs⟩
      · show wellFormed (end_poll db p u t).2
        rw [hs]
        exact h
      · show wellFormed (end_poll db p u t).2
        rw [hs]
        exact wellFormed_of_pairs db _ rfl rfl rfl h
  | addOption p s u => exact wellFormed_add db p s u h
  | removeOption p o u => exact wellFormed_remove db p o u h
  | editOption p o s u =>
      rcases edit_poll_option_shape db p o s u with hs | hs
      · show wellFormed (edit_poll_option db p o s u).2
        rw [hs]
        exact h
      · show wellFormed (edit_poll_option db p o s u).2
        rw [hs]
        refine wellFormed_of_pairs db _ ?_ rfl rfl h
        exact updateFirst_map_eq _ (fun o => { o with text := strStrip s })
          (fun o => (o.id, o.voteCount)) (fun a => rfl) db.options
  | reorder p ord u =>
      rcases reorder_poll_options_shape db p ord u with hs | hs
      · show wellFormed (reorder_poll_options db p ord u).2
        rw [hs]
        exact h
      · show wellFormed (reorder_poll_options db p ord u).2
        rw [hs]
        exact wellFormed_of_pairs db _ (foldl_updateFirst_pairs p ord.enum db.options)
          rfl rfl h

/-- Well-formedness holds along any good mutation sequence. -/
theorem wellFormed_applyAll : ∀ (ms : List Mutation) (db : DB),
    wellFormed db → goodSeq db ms → wellFormed (applyAll db ms)
  | [], _, h, _ => h
  | m :: ms, db, h, hg =>
      wellFormed_applyAll ms (applyMutation db m)
        (wellFormed_applyMutation db m hg.1 h) hg.2

/-- Counterexample to C3: starting from the fresh well-formed fixture, a
committed vote naming the not-yet-allocated option id 3 (process_vote does
not validate the option) followed by a committed add_poll_option — both
mutations succeed — yields a state where the new option with id 3 has
voteCount 0 while one ledger record names option 3, violating the claimed
invariant after a committed mutation. -/
theorem counters_counterexample_dangling_vote :
    (process_vote dbBase 1 3 "V9" 10).1 = true ∧
      (add_poll_option (process_vote dbBase 1 3 "V9" 10).2 1 "C" "U1").1 = true ∧
      ¬ countersConsistent
        (applyAll dbBase [Mutation.vote 1 3 "V9" 10, Mutation.addOption 1 "C" "U1"]) := by
  refine ⟨by decide, by decide, by decide⟩

/-- Amended C3: the counter-consistency invariant is preserved by every
committed mutation provided each RecordVote names an option existing at the
time of the vote.  Starting from any well-formed state — counters consistent,
option ids distinct and below the id sequence, and no ledger record naming an
id at or above the sequence — any sequence of RecordVote, EndPoll, AddOption,
RemoveOption, RenameOption and Reorder mutations whose votes target existing
options leaves every remaining option with voteCount equal to the number of
VoteRecords naming it. -/
theorem counters_consistent_after_good_mutations (db : DB) (ms : List Mutation)
    (h : wellFormed db) (hg : goodSeq db ms) :
    countersConsistent (applyAll db ms) :=
  (wellFormed_applyAll ms db h hg).1

/-- Witness for C3 amended: a concrete good sequence — two valid votes, an
option addition, a rename, a reorder and the poll ending — keeps the counters
consistent. -/
theorem counters_consistent_after_good_mutations_witness :
    countersConsistent (applyAll dbBase
      [Mutation.vote 1 1 "V1" 5, Mutation.addOption 1 "C" "U1",
       Mutation.vote 1 2 "V2" 6, Mutation.editOption 1 2 "B2" "U1",
       Mutation.reorder 1 [2, 1, 3] "U1", Mutation.endP 1 "U1" 50]) :=
  counters_consistent_after_good_mutations dbBase
    [Mutation.vote 1 1 "V1" 5, Mutation.addOption 1 "C" "U1",
     Mutation.vote 1 2 "V2" 6, Mutation.editOption 1 2 "B2" "U1",
     Mutation.reorder 1 [2, 1, 3] "U1", Mutation.endP 1 "U1" 50]
    (by decide) (by decide)

end Agora
